import Mathlib

/-!
Shallow embedding of the `channels` package (request/response codec, ASGI
HTTP handler and the Twisted WebSocket multiplexer) and proofs of the
specification's testable properties about it.

Modeling conventions:
* Python `bytes` values are lists of byte values (`List Nat`).
* Python `str` values are Lean `String`s, except where a string flows
  through the UTF-8 codec, in which case its list of code points is used.
* Python `dict`s (insertion ordered) are association lists; building a
  dict from a sequence of key/value pairs is `pyDict`, which overwrites
  the value in place on a repeated key, as Python does.
* Raising an exception is returning `Except.error`.
-/

namespace Channels

/-- Bytes (a Python `bytes` object) are modeled as the list of byte values. -/
abbrev Bytes := List Nat

/-- Transport encoding of text to bytes (`str.encode("ascii")` /
`str.encode("latin1")` in the source): each character becomes its code
point.  This is exact for the latin-1 range the source handles. -/
def strBytes (s : String) : Bytes := s.data.map Char.toNat

/-- Lookup in an insertion-ordered Python dict (`d[k]` / `k in d`). -/
def dlookup {α : Type} (l : List (String × α)) (k : String) : Option α :=
  (l.find? (fun p => p.1 == k)).map Prod.snd

/-- Key membership test for a Python dict (`k in d`). -/
def containsKey {α : Type} (l : List (String × α)) (k : String) : Bool :=
  l.any (fun p => p.1 == k)

/-- Overwrite the value stored under an existing key, keeping its
position, as `d[k] = v` does on a present key. -/
def dictSet {α : Type} (l : List (String × α)) (k : String) (v : α) :
    List (String × α) :=
  l.map (fun p => if p.1 == k then (k, v) else p)

/-- `d[k] = v` on a Python dict: overwrite in place when the key exists,
append at the end otherwise. -/
def dictInsert {α : Type} (l : List (String × α)) (k : String) (v : α) :
    List (String × α) :=
  if containsKey l k then dictSet l k v else l ++ [(k, v)]

/-- Build a Python dict from a sequence of key/value pairs
(`dict(pairs)` or a dict comprehension): later pairs overwrite earlier
values in place. -/
def pyDict {α : Type} (l : List (String × α)) : List (String × α) :=
  l.foldl (fun acc p => dictInsert acc p.1 p.2) []

/-- `del d[k]` on a Python dict. -/
def pyDictDel {α : Type} (l : List (String × α)) (k : String) :
    List (String × α) :=
  l.filter (fun p => !(p.1 == k))

namespace AsgiHandler

/-- `AsgiHandler.chunk_size` (src/channels/http.py line 168). -/
def chunk_size : Nat := 512 * 1024

/-- The `while position < len(data)` loop of `AsgiHandler.chunk_bytes`
(src/channels/http.py lines 310-319), which slices
`data[position:position+chunk_size]` and flags the slice as last when
`position + chunk_size >= len(data)`.  When the chunk size is `0` the
source loop never terminates; that branch is unreachable in the program
(`chunk_size = 512 * 1024`) and every theorem below assumes a positive
chunk size. -/
def chunkLoop (cs : Nat) (data : Bytes) : List (Bytes × Bool) :=
  if _h0 : cs = 0 then []
  else if _h1 : data.length ≤ cs then [(data, true)]
  else (data.take cs, false) :: chunkLoop cs (data.drop cs)
termination_by data.length
decreasing_by
  simp only [List.length_drop]
  omega

/-- `AsgiHandler.chunk_bytes` (src/channels/http.py lines 302-319),
parameterized by the class attribute `chunk_size`: an empty body yields
the single chunk `(data, True)`, otherwise the slicing loop runs. -/
def chunk_bytes (cs : Nat) (data : Bytes) : List (Bytes × Bool) :=
  if data.isEmpty then [(data, true)] else chunkLoop cs data

end AsgiHandler

/-- One ASGI `http.response.*` message as yielded by
`AsgiHandler.encode_response`: either the initial framing message (type
`http.response.start`, with `status` and `headers`), or a body chunk
message (type `http.response.chunk`); `content` and `more_content` are
`Option`s because the final closing message of a streaming response
carries neither key. -/
inductive HttpMessage : Type
  | start (status : Nat) (headers : List (Bytes × Bytes))
  | chunk (content : Option Bytes) (more_content : Option Bool)
deriving DecidableEq

/-- The `more_content` field of a chunk message (`none` for the framing
message, whose dict has no such key). -/
def HttpMessage.moreContent : HttpMessage → Option Bool
  | .start _ _ => none
  | .chunk _ mc => mc

/-- The `content` field of a chunk message, when present. -/
def HttpMessage.contentOf : HttpMessage → Option Bytes
  | .chunk (some c) _ => some c
  | _ => none

/-- The state of a Django `HttpResponse` as read by
`AsgiHandler.encode_response` (src/channels/http.py lines 242-300):
`headers` models `response.items()` (header names in their original
case), `cookies` the name/value morsels of `response.cookies`,
`content` the body of a non-streaming response, and `streaming_content`
the parts iterated for a streaming one. -/
structure HttpResponse where
  status_code : Nat
  headers : List (String × String)
  cookies : List (String × String)
  streaming : Bool
  content : Bytes
  streaming_content : List Bytes

/-- `Morsel.output(header="")` from the standard cookie library (an
external collaborator), modeled for plain token cookies that need no
quoting: the string ` name=value`. -/
def cookieOutput (n v : String) : String := " " ++ n ++ "=" ++ v

/-- The `response_headers` list built by `AsgiHandler.encode_response`
(src/channels/http.py lines 250-268): every header of the response,
name and value encoded to bytes with the case kept, followed by one
`Set-Cookie` entry per cookie. -/
def AsgiHandler.response_headers (r : HttpResponse) : List (Bytes × Bytes) :=
  r.headers.map (fun hv => (strBytes hv.1, strBytes hv.2))
    ++ r.cookies.map (fun nv => (strBytes "Set-Cookie", strBytes (cookieOutput nv.1 nv.2)))

/-- `AsgiHandler.encode_response` (src/channels/http.py lines 242-300),
parameterized by the class attribute `chunk_size`: the framing message,
then for a streaming response every part's chunks all flagged
`more_content = True` followed by the bare closing message, and for any
other response the chunks of `response.content` flagged
`more_content = not last`. -/
def AsgiHandler.encode_response (cs : Nat) (r : HttpResponse) : List HttpMessage :=
  HttpMessage.start r.status_code (AsgiHandler.response_headers r) ::
    (if r.streaming then
      (r.streaming_content.map (fun part =>
        (AsgiHandler.chunk_bytes cs part).map
          (fun p => HttpMessage.chunk (some p.1) (some true)))).flatten
        ++ [HttpMessage.chunk none none]
    else
      (AsgiHandler.chunk_bytes cs r.content).map
        (fun p => HttpMessage.chunk (some p.1) (some (!p.2))))

theorem chunkLoop_join (cs : Nat) (hcs : 0 < cs) (data : Bytes) :
    ((AsgiHandler.chunkLoop cs data).map Prod.fst).flatten = data := by
  induction data using AsgiHandler.chunkLoop.induct cs with
  | case1 data h0 => omega
  | case2 data h0 h1 =>
    rw [AsgiHandler.chunkLoop]
    simp [h0, h1]
  | case3 data h0 h1 ih =>
    rw [AsgiHandler.chunkLoop]
    simp only [h0, h1, dite_false, List.map_cons, List.flatten_cons]
    rw [ih]
    exact List.take_append_drop cs data

theorem chunkLoop_length (cs : Nat) (hcs : 0 < cs) (data : Bytes) (hne : data ≠ []) :
    (AsgiHandler.chunkLoop cs data).length = (data.length + cs - 1) / cs := by
  induction data using AsgiHandler.chunkLoop.induct cs with
  | case1 data h0 => omega
  | case2 data h0 h1 =>
    rw [AsgiHandler.chunkLoop]
    simp only [h0, h1, dite_true, dite_false, List.length_singleton]
    have hlen : 0 < data.length := List.length_pos.mpr hne
    have h3 : data.length + cs - 1 = (data.length - 1) + cs := by omega
    rw [h3, Nat.add_div_right _ hcs, Nat.div_eq_of_lt (by omega)]
  | case3 data h0 h1 ih =>
    rw [AsgiHandler.chunkLoop]
    have hne2 : data.drop cs ≠ [] := by
      intro h
      have := congrArg List.length h
      simp only [List.length_drop, List.length_nil] at this
      omega
    simp only [h0, h1, dite_false, List.length_cons]
    rw [ih hne2]
    simp only [List.length_drop]
    have h2 : data.length - cs + cs - 1 = data.length - 1 := by omega
    have h3 : data.length + cs - 1 = (data.length - 1) + cs := by omega
    rw [h2, h3, Nat.add_div_right _ hcs]

theorem chunkLoop_flags (cs : Nat) (hcs : 0 < cs) (data : Bytes) (hne : data ≠ []) :
    (AsgiHandler.chunkLoop cs data).map Prod.snd =
      List.replicate ((AsgiHandler.chunkLoop cs data).length - 1) false ++ [true] := by
  induction data using AsgiHandler.chunkLoop.induct cs with
  | case1 data h0 => omega
  | case2 data h0 h1 => rw [AsgiHandler.chunkLoop]; simp [h0, h1]
  | case3 data h0 h1 ih =>
    have hne2 : data.drop cs ≠ [] := by
      intro h
      have := congrArg List.length h
      simp only [List.length_drop, List.length_nil] at this
      omega
    rw [AsgiHandler.chunkLoop]
    simp only [h0, h1, dite_false, List.map_cons, List.length_cons]
    rw [ih hne2]
    have hlen : 0 < (AsgiHandler.chunkLoop cs (data.drop cs)).length := by
      rw [chunkLoop_length cs hcs _ hne2]
      refine Nat.div_pos ?_ hcs
      have hp : 0 < (data.drop cs).length := List.length_pos.mpr hne2
      simp only [List.length_drop] at hp ⊢
      omega
    have h4 : (AsgiHandler.chunkLoop cs (data.drop cs)).length + 1 - 1
        = ((AsgiHandler.chunkLoop cs (data.drop cs)).length - 1) + 1 := by omega
    rw [h4, List.replicate_succ, List.cons_append]

theorem chunk_bytes_join (cs : Nat) (hcs : 0 < cs) (data : Bytes) :
    ((AsgiHandler.chunk_bytes cs data).map Prod.fst).flatten = data := by
  rw [AsgiHandler.chunk_bytes]
  by_cases h : data = []
  · simp [h]
  · simp only [List.isEmpty_iff, h, if_false]
    exact chunkLoop_join cs hcs data

theorem chunk_bytes_length (cs : Nat) (hcs : 0 < cs) (data : Bytes) :
    (AsgiHandler.chunk_bytes cs data).length
      = if data = [] then 1 else (data.length + cs - 1) / cs := by
  rw [AsgiHandler.chunk_bytes]
  by_cases h : data = []
  · simp [h]
  · simp only [List.isEmpty_iff, h, if_false]
    exact chunkLoop_length cs hcs data h

theorem chunk_bytes_flags (cs : Nat) (hcs : 0 < cs) (data : Bytes) :
    (AsgiHandler.chunk_bytes cs data).map Prod.snd =
      List.replicate ((AsgiHandler.chunk_bytes cs data).length - 1) false ++ [true] := by
  rw [AsgiHandler.chunk_bytes]
  by_cases h : data = []
  · simp [h]
  · simp only [List.isEmpty_iff, h, if_false]
    exact chunkLoop_flags cs hcs data h

/-- Claim C1: for every byte sequence `B` and positive chunk size `cs`,
`chunk_bytes` yields `ceil(len(B)/cs)` chunks (one empty chunk when `B`
is empty), the concatenation of the chunk contents is `B`, exactly the
last chunk carries the last-chunk flag, and in the non-streaming output
of `encode_response` only the final chunk message has
`more_content = false`. -/
theorem claim_C1 (cs : Nat) (B : Bytes) (r : HttpResponse)
    (hcs : 0 < cs) (hstream : r.streaming = false) :
    (AsgiHandler.chunk_bytes cs B).length
        = (if B = [] then 1 else (B.length + cs - 1) / cs)
    ∧ ((AsgiHandler.chunk_bytes cs B).map Prod.fst).flatten = B
    ∧ (AsgiHandler.chunk_bytes cs B).map Prod.snd
        = List.replicate ((AsgiHandler.chunk_bytes cs B).length - 1) false ++ [true]
    ∧ (AsgiHandler.encode_response cs r).tail.map HttpMessage.moreContent
        = List.replicate ((AsgiHandler.chunk_bytes cs r.content).length - 1) (some true)
            ++ [some false] := by
  refine ⟨chunk_bytes_length cs hcs B, chunk_bytes_join cs hcs B,
    chunk_bytes_flags cs hcs B, ?_⟩
  rw [AsgiHandler.encode_response]
  simp only [hstream, Bool.false_eq_true, if_false, List.tail_cons, List.map_map]
  have hcomp :
      (HttpMessage.moreContent ∘ fun p : Bytes × Bool =>
        HttpMessage.chunk (some p.1) (some (!p.2)))
      = (fun b => some (!b)) ∘ Prod.snd := by
    funext p
    rfl
  rw [hcomp, ← List.map_map, chunk_bytes_flags cs hcs r.content]
  simp

/-- Concrete instance of the chunking specification: chunk size `2`,
body `[1, 2, 3]`, a plain non-streaming response. -/
theorem claim_C1_witness :
    (0 < 2 ∧
      ({ status_code := 200, headers := [], cookies := [], streaming := false,
         content := [1, 2, 3], streaming_content := [] } : HttpResponse).streaming = false)
    ∧ ((AsgiHandler.chunk_bytes 2 [1, 2, 3]).length
        = (if ([1, 2, 3] : Bytes) = [] then 1 else (([1, 2, 3] : Bytes).length + 2 - 1) / 2)
    ∧ ((AsgiHandler.chunk_bytes 2 [1, 2, 3]).map Prod.fst).flatten = [1, 2, 3]
    ∧ (AsgiHandler.chunk_bytes 2 [1, 2, 3]).map Prod.snd
        = List.replicate ((AsgiHandler.chunk_bytes 2 [1, 2, 3]).length - 1) false ++ [true]
    ∧ (AsgiHandler.encode_response 2
          { status_code := 200, headers := [], cookies := [], streaming := false,
            content := [1, 2, 3], streaming_content := [] }).tail.map HttpMessage.moreContent
        = List.replicate
            ((AsgiHandler.chunk_bytes 2
              ({ status_code := 200, headers := [], cookies := [], streaming := false,
                 content := [1, 2, 3], streaming_content := [] } : HttpResponse).content).length - 1)
            (some true)
            ++ [some false]) :=
  ⟨⟨by decide, rfl⟩,
    claim_C1 2 [1, 2, 3]
      { status_code := 200, headers := [], cookies := [], streaming := false,
        content := [1, 2, 3], streaming_content := [] }
      (by decide) rfl⟩

theorem strBytes_injective : Function.Injective strBytes := by
  intro a b h
  have hchar : Function.Injective Char.toNat := by
    intro c d hcd
    exact Char.eq_of_val_eq (UInt32.ext hcd)
  have hdata : a.data = b.data := List.map_injective_iff.mpr hchar h
  cases a
  cases b
  exact congrArg String.mk hdata

/-- Claim C6: the first message yielded by `encode_response` is the
framing message carrying the response's status code and the header
list made of every original header (name case preserved, `strBytes`
being injective) followed by one `Set-Cookie` entry per cookie. -/
theorem claim_C6 (cs : Nat) (r : HttpResponse) :
    (AsgiHandler.encode_response cs r).head?
        = some (HttpMessage.start r.status_code
            (r.headers.map (fun hv => (strBytes hv.1, strBytes hv.2))
              ++ r.cookies.map
                  (fun nv => (strBytes "Set-Cookie", strBytes (cookieOutput nv.1 nv.2)))))
    ∧ (∀ hv ∈ r.headers,
        (strBytes hv.1, strBytes hv.2) ∈ AsgiHandler.response_headers r)
    ∧ (∀ nv ∈ r.cookies,
        (strBytes "Set-Cookie", strBytes (cookieOutput nv.1 nv.2))
          ∈ AsgiHandler.response_headers r)
    ∧ Function.Injective strBytes := by
  refine ⟨rfl, ?_, ?_, strBytes_injective⟩
  · intro hv hmem
    rw [AsgiHandler.response_headers]
    exact List.mem_append_left _ (List.mem_map_of_mem _ hmem)
  · intro nv hmem
    rw [AsgiHandler.response_headers]
    exact List.mem_append_right _ (List.mem_map_of_mem _ hmem)

theorem streaming_chunks_content (cs : Nat) (hcs : 0 < cs) (parts : List Bytes) :
    (((parts.map (fun part =>
        (AsgiHandler.chunk_bytes cs part).map
          (fun p => HttpMessage.chunk (some p.1) (some true)))).flatten).filterMap
        HttpMessage.contentOf).flatten = parts.flatten := by
  induction parts with
  | nil => rfl
  | cons part rest ih =>
    simp only [List.map_cons, List.flatten_cons, List.filterMap_append,
      List.flatten_append, ih]
    congr 1
    rw [List.filterMap_map]
    have hmapped :
        (HttpMessage.contentOf ∘ fun p : Bytes × Bool =>
          HttpMessage.chunk (some p.1) (some true))
        = some ∘ (Prod.fst : Bytes × Bool → Bytes) := by
      funext p
      rfl
    rw [hmapped, List.filterMap_eq_map]
    exact chunk_bytes_join cs hcs part

/-- Claim C5: for a streaming response, `encode_response` chunks each
part separately, flags every chunk of every part `more_content = true`,
and after the last part yields one extra closing chunk message carrying
neither `content` nor `more_content`; the chunk contents concatenate to
the concatenation of the parts. -/
theorem claim_C5 (cs : Nat) (r : HttpResponse)
    (hcs : 0 < cs) (hstream : r.streaming = true) :
    ∃ body,
      AsgiHandler.encode_response cs r
          = HttpMessage.start r.status_code (AsgiHandler.response_headers r)
              :: (body ++ [HttpMessage.chunk none none])
      ∧ (∀ m ∈ body, ∃ c, m = HttpMessage.chunk (some c) (some true))
      ∧ (body.filterMap HttpMessage.contentOf).flatten = r.streaming_content.flatten := by
  refine ⟨(r.streaming_content.map (fun part =>
      (AsgiHandler.chunk_bytes cs part).map
        (fun p => HttpMessage.chunk (some p.1) (some true)))).flatten, ?_, ?_, ?_⟩
  · rw [AsgiHandler.encode_response]
    simp [hstream]
  · intro m hm
    rcases List.mem_flatten.mp hm with ⟨inner, hinner, hmmem⟩
    rcases List.mem_map.mp hinner with ⟨part, _, hpart⟩
    subst hpart
    rcases List.mem_map.mp hmmem with ⟨p, _, hp⟩
    exact ⟨p.1, hp.symm⟩
  · exact streaming_chunks_content cs hcs r.streaming_content

/-- Concrete instance of the streaming encoding: chunk size `2` and a
streaming response with parts `[1, 2, 3]` and `[4]`. -/
theorem claim_C5_witness :
    (0 < 2 ∧
      ({ status_code := 200, headers := [], cookies := [], streaming := true,
         content := [], streaming_content := [[1, 2, 3], [4]] } : HttpResponse).streaming
        = true)
    ∧ ∃ body,
      AsgiHandler.encode_response 2
          { status_code := 200, headers := [], cookies := [], streaming := true,
            content := [], streaming_content := [[1, 2, 3], [4]] }
          = HttpMessage.start 200 (AsgiHandler.response_headers
              { status_code := 200, headers := [], cookies := [], streaming := true,
                content := [], streaming_content := [[1, 2, 3], [4]] })
              :: (body ++ [HttpMessage.chunk none none])
      ∧ (∀ m ∈ body, ∃ c, m = HttpMessage.chunk (some c) (some true))
      ∧ (body.filterMap HttpMessage.contentOf).flatten
          = ([[1, 2, 3], [4]] : List Bytes).flatten :=
  ⟨⟨by decide, rfl⟩,
    claim_C5 2
      { status_code := 200, headers := [], cookies := [], streaming := true,
        content := [], streaming_content := [[1, 2, 3], [4]] }
      (by decide) rfl⟩

/-- An ASGI connection scope as consumed by `AsgiHandler.__init__`
(src/channels/http.py lines 170-175): the `"type"` entry plus the rest
of the mapping, which the constructor does not inspect. -/
structure Scope where
  type : String
  rest : List (String × String)
deriving DecidableEq

/-- The state an `AsgiHandler` instance holds after construction: the
scope, stored unchanged (`self.scope = scope`). -/
structure AsgiHandlerState where
  scope : Scope
deriving DecidableEq

/-- `AsgiHandler.__init__` (src/channels/http.py lines 170-175): raise
`ValueError` unless `scope["type"] == "http"`, otherwise store the
scope.  Raising is modeled as `Except.error` carrying the message. -/
def AsgiHandler.init (scope : Scope) : Except String AsgiHandlerState :=
  if scope.type ≠ "http" then
    .error ("The AsgiHandler can only handle HTTP connections, not " ++ scope.type)
  else
    .ok { scope := scope }

/-- Claim C9: constructing an `AsgiHandler` on a scope whose type is
not `"http"` raises `ValueError`, and on an `"http"` scope succeeds,
storing the scope unchanged. -/
theorem claim_C9 (scope : Scope) :
    (scope.type ≠ "http" →
      AsgiHandler.init scope
        = .error ("The AsgiHandler can only handle HTTP connections, not " ++ scope.type))
    ∧ (scope.type = "http" → AsgiHandler.init scope = .ok { scope := scope }) := by
  constructor
  · intro h
    rw [AsgiHandler.init, if_pos h]
  · intro h
    rw [AsgiHandler.init, if_neg (by simp [h])]

/-- Concrete instances of the constructor behaviour: a `"websocket"`
scope is refused, an `"http"` scope is stored. -/
theorem claim_C9_witness :
    ((Scope.mk "websocket" []).type ≠ "http"
      ∧ AsgiHandler.init (Scope.mk "websocket" [])
          = .error "The AsgiHandler can only handle HTTP connections, not websocket")
    ∧ ((Scope.mk "http" []).type = "http"
      ∧ AsgiHandler.init (Scope.mk "http" [])
          = .ok { scope := Scope.mk "http" [] }) :=
  ⟨⟨by decide, (claim_C9 (Scope.mk "websocket" [])).1 (by decide)⟩,
    ⟨rfl, (claim_C9 (Scope.mk "http" [])).2 rfl⟩⟩

/-- An exception value: the distinctions the embedded code makes never
depend on which exception was raised, only on whether one was. -/
structure PyErr where
  message : String
deriving DecidableEq

/-- `AsgiHandler.handle_uncaught_exception` (src/channels/http.py lines
228-240).  The outcome of the delegated
`BaseHandler.handle_uncaught_exception` call (framework code outside
this repository) is passed in as an `Except`: the bare `except:` turns
any failure into the plain-text `HttpResponseServerError`, whose body
is the formatted traceback when `settings.DEBUG` is on and
`"Internal Server Error"` otherwise. -/
def AsgiHandler.handle_uncaught_exception (debug : Bool) (tb : String)
    (superResult : Except PyErr HttpResponse) : HttpResponse :=
  match superResult with
  | .ok r => r
  | .error _ =>
    { status_code := 500
      headers := [("Content-Type", "text/plain")]
      cookies := []
      streaming := false
      content := strBytes (if debug then tb else "Internal Server Error")
      streaming_content := [] }

/-- Claim C8: whatever the normal error-response construction does, the
handler returns a response; when that construction itself raises, the
result is the minimal plain-text 500 response whose body carries the
traceback only in debug configuration. -/
theorem claim_C8 (debug : Bool) (tb : String) (superResult : Except PyErr HttpResponse) :
    (∃ r, AsgiHandler.handle_uncaught_exception debug tb superResult = r)
    ∧ (∀ e, superResult = .error e →
        (AsgiHandler.handle_uncaught_exception debug tb superResult).status_code = 500
        ∧ (AsgiHandler.handle_uncaught_exception debug tb superResult).headers
            = [("Content-Type", "text/plain")]
        ∧ (AsgiHandler.handle_uncaught_exception debug tb superResult).streaming = false
        ∧ (AsgiHandler.handle_uncaught_exception debug tb superResult).content
            = strBytes (if debug then tb else "Internal Server Error")) := by
  refine ⟨⟨_, rfl⟩, ?_⟩
  intro e he
  subst he
  exact ⟨rfl, rfl, rfl, rfl⟩

/-- Concrete instance of the last-chance handler: the delegated call
raises, debug is off, and the minimal plain-text 500 comes back. -/
theorem claim_C8_witness :
    (∃ r, AsgiHandler.handle_uncaught_exception false "trace" (.error ⟨"boom"⟩) = r)
    ∧ ((AsgiHandler.handle_uncaught_exception false "trace" (.error ⟨"boom"⟩)).status_code = 500
      ∧ (AsgiHandler.handle_uncaught_exception false "trace" (.error ⟨"boom"⟩)).headers
          = [("Content-Type", "text/plain")]
      ∧ (AsgiHandler.handle_uncaught_exception false "trace" (.error ⟨"boom"⟩)).streaming = false
      ∧ (AsgiHandler.handle_uncaught_exception false "trace" (.error ⟨"boom"⟩)).content
          = strBytes (if false then "trace" else "Internal Server Error")) :=
  ⟨(claim_C8 false "trace" (.error ⟨"boom"⟩)).1,
    (claim_C8 false "trace" (.error ⟨"boom"⟩)).2 ⟨"boom"⟩ rfl⟩

/-- Concrete instance of the framing message: one header and one
cookie. -/
theorem claim_C6_witness :
    (AsgiHandler.encode_response 2
        { status_code := 200, headers := [("Content-Type", "text/html")],
          cookies := [("sid", "abc")], streaming := false,
          content := [], streaming_content := [] }).head?
      = some (HttpMessage.start 200
          ([("Content-Type", "text/html")].map
              (fun hv : String × String => (strBytes hv.1, strBytes hv.2))
            ++ [("sid", "abc")].map
              (fun nv : String × String =>
                (strBytes "Set-Cookie", strBytes (cookieOutput nv.1 nv.2)))))
    ∧ (strBytes "Content-Type", strBytes "text/html")
        ∈ AsgiHandler.response_headers
            { status_code := 200, headers := [("Content-Type", "text/html")],
              cookies := [("sid", "abc")], streaming := false,
              content := [], streaming_content := [] }
    ∧ (strBytes "Set-Cookie", strBytes (cookieOutput "sid" "abc"))
        ∈ AsgiHandler.response_headers
            { status_code := 200, headers := [("Content-Type", "text/html")],
              cookies := [("sid", "abc")], streaming := false,
              content := [], streaming_content := [] } :=
  ⟨(claim_C6 2
      { status_code := 200, headers := [("Content-Type", "text/html")],
        cookies := [("sid", "abc")], streaming := false,
        content := [], streaming_content := [] }).1,
    (claim_C6 2
      { status_code := 200, headers := [("Content-Type", "text/html")],
        cookies := [("sid", "abc")], streaming := false,
        content := [], streaming_content := [] }).2.1
      ("Content-Type", "text/html") (by simp),
    (claim_C6 2
      { status_code := 200, headers := [("Content-Type", "text/html")],
        cookies := [("sid", "abc")], streaming := false,
        content := [], streaming_content := [] }).2.2.1
      ("sid", "abc") (by simp)⟩

/-- An outbound dispatch instruction for a WebSocket, the keyword
arguments of `InterfaceProtocol.onChannelSend`
(src/channels/interfaces/websocket_twisted.py line 42). -/
structure WsMessage where
  content : String
  binary : Bool
deriving DecidableEq

/-- `InterfaceFactory.dispatch_send`
(src/channels/interfaces/websocket_twisted.py lines 67-68):
`self.protocols[channel].onChannelSend(**message)`.  The factory's
`protocols` dict maps the reply-channel name to the live protocol,
identified here by a number; a successful dispatch returns which
protocol wrote the frame and what it wrote, and a missing key is the
`KeyError` the subscript raises. -/
def InterfaceFactory.dispatch_send (protocols : List (String × Nat))
    (channel : String) (message : WsMessage) : Except PyErr (Nat × WsMessage) :=
  match dlookup protocols channel with
  | none => .error { message := "KeyError: " ++ channel }
  | some p => .ok (p, message)

/-- The bookkeeping of `InterfaceProtocol.onClose`
(src/channels/interfaces/websocket_twisted.py line 46):
`del self.factory.protocols[self.send_channel]`. -/
def InterfaceProtocol.onCloseRemove (protocols : List (String × Nat))
    (send_channel : String) : List (String × Nat) :=
  pyDictDel protocols send_channel

/-- Claim C4, evaluated on the code: after `onClose` removed a
connection's entry, dispatching to its former reply-channel name
raises `KeyError` — the subscript in `dispatch_send` has no guard — so
the exception does propagate to the backend reader loop, contrary to
the claim; the message reaches no other live connection. -/
theorem claim_C4 :
    InterfaceFactory.dispatch_send
        (InterfaceProtocol.onCloseRemove
          [("django.websocket.send.live1", 1), ("django.websocket.send.gone2", 2)]
          "django.websocket.send.gone2")
        "django.websocket.send.gone2" { content := "hello", binary := false }
      = .error { message := "KeyError: django.websocket.send.gone2" }
    ∧ InterfaceProtocol.onCloseRemove
        [("django.websocket.send.live1", 1), ("django.websocket.send.gone2", 2)]
        "django.websocket.send.gone2"
      = [("django.websocket.send.live1", 1)] := by
  exact ⟨rfl, rfl⟩

theorem dlookup_cons {α : Type} (p : String × α) (l : List (String × α)) (k : String) :
    dlookup (p :: l) k = if p.1 = k then some p.2 else dlookup l k := by
  by_cases h : p.1 = k
  · simp [dlookup, List.find?_cons_of_pos, h]
  · simp [dlookup, List.find?_cons_of_neg, h]

theorem dlookup_dictSet_ne {α : Type} (l : List (String × α)) (k : String) (v : α)
    (k' : String) (h : k' ≠ k) :
    dlookup (dictSet l k v) k' = dlookup l k' := by
  induction l with
  | nil => rfl
  | cons p l ih =>
    rw [dictSet, List.map_cons]
    by_cases hp : p.1 = k
    · rw [if_pos (by simp [hp]), dlookup_cons, dlookup_cons,
        if_neg (fun hq => h hq.symm), if_neg (fun hq => h (hp ▸ hq).symm)]
      exact ih
    · rw [if_neg (by simp [hp]), dlookup_cons, dlookup_cons]
      by_cases hq : p.1 = k'
      · simp [hq]
      · rw [if_neg hq, if_neg hq]
        exact ih

theorem dlookup_dictSet_self {α : Type} (l : List (String × α)) (k : String) (v : α)
    (h : containsKey l k = true) :
    dlookup (dictSet l k v) k = some v := by
  induction l with
  | nil => simp [containsKey] at h
  | cons p l ih =>
    rw [dictSet, List.map_cons]
    by_cases hp : p.1 = k
    · rw [if_pos (by simp [hp]), dlookup_cons, if_pos rfl]
    · rw [if_neg (by simp [hp]), dlookup_cons, if_neg hp]
      apply ih
      rw [containsKey, List.any_cons] at h
      simp only [Bool.or_eq_true] at h
      rcases h with h1 | h2
      · exact absurd (eq_of_beq h1) hp
      · exact h2

theorem dlookup_append_new {α : Type} (l : List (String × α)) (k : String) (v : α)
    (h : containsKey l k = false) :
    dlookup (l ++ [(k, v)]) k = some v := by
  induction l with
  | nil => simp [dlookup]
  | cons p l ih =>
    rw [containsKey, List.any_cons] at h
    simp only [Bool.or_eq_false_iff] at h
    have hp : ¬ p.1 = k := by
      intro hq
      rw [hq] at h
      simp at h
    rw [List.cons_append, dlookup_cons, if_neg hp]
    exact ih h.2

theorem dlookup_append_ne {α : Type} (l : List (String × α)) (k : String) (v : α)
    (k' : String) (h : k' ≠ k) :
    dlookup (l ++ [(k, v)]) k' = dlookup l k' := by
  induction l with
  | nil => rw [List.nil_append, dlookup_cons, if_neg (fun hq => h hq.symm)]
  | cons p l ih =>
    rw [List.cons_append, dlookup_cons, dlookup_cons]
    by_cases hq : p.1 = k'
    · simp [hq]
    · rw [if_neg hq, if_neg hq]
      exact ih

theorem dlookup_dictInsert_self {α : Type} (l : List (String × α)) (k : String) (v : α) :
    dlookup (dictInsert l k v) k = some v := by
  rw [dictInsert]
  by_cases h : containsKey l k
  · rw [if_pos h]
    exact dlookup_dictSet_self l k v h
  · rw [if_neg h]
    exact dlookup_append_new l k v (Bool.eq_false_iff.mpr h)

theorem dlookup_dictInsert_ne {α : Type} (l : List (String × α)) (k : String) (v : α)
    (k' : String) (h : k' ≠ k) :
    dlookup (dictInsert l k v) k' = dlookup l k' := by
  rw [dictInsert]
  by_cases hc : containsKey l k
  · rw [if_pos hc]
    exact dlookup_dictSet_ne l k v k' h
  · rw [if_neg hc]
    exact dlookup_append_ne l k v k' h

namespace AsgiRequest

/-- `str.upper()` on one character, modeled on the ASCII range header
names live in. -/
def pyUpperChar (c : Char) : Char :=
  if 'a' ≤ c ∧ c ≤ 'z' then Char.ofNat (c.toNat - 32) else c

/-- `str.upper()`, modeled on the ASCII range. -/
def pyUpper (s : String) : String := String.mk (s.data.map pyUpperChar)

/-- `str.replace("-", "_")`: a single-character pattern, so a map over
the characters. -/
def dashToUnderscore (s : String) : String :=
  String.mk (s.data.map (fun c => if c = '-' then '_' else c))

/-- The `corrected_name` computed for one incoming header name by
`AsgiRequest.__init__` (src/channels/http.py lines 90-95):
`content-length` and `content-type` map to the bare CGI keys, any other
name to `HTTP_` plus the name uppercased with dashes replaced by
underscores. -/
def corrected_name (name : String) : String :=
  if name = "content-length" then "CONTENT_LENGTH"
  else if name = "content-type" then "CONTENT_TYPE"
  else "HTTP_" ++ dashToUnderscore (pyUpper name)

/-- One iteration of the headers loop of `AsgiRequest.__init__`
(src/channels/http.py lines 88-100): when `corrected_name` is already a
key of META the new value is folded as `old + "," + new`, and the
result is stored under `corrected_name`. -/
def addHeader (meta : List (String × String)) (name value : String) :
    List (String × String) :=
  match dlookup meta (corrected_name name) with
  | some old => dictInsert meta (corrected_name name) (old ++ "," ++ value)
  | none => dictInsert meta (corrected_name name) value

/-- The whole `for name, value in self.scope.get('headers', [])` loop
folded over an initial META dict. -/
def processHeaders (meta : List (String × String))
    (headers : List (String × String)) : List (String × String) :=
  headers.foldl (fun m p => addHeader m p.1 p.2) meta

end AsgiRequest

/-- Comma-join of a list of values, the way the META loop folds them:
`v1 + "," + v2 + "," + ...`. -/
def commaJoin : List String → String
  | [] => ""
  | v :: vs => vs.foldl (fun a b => a ++ "," ++ b) v

/-- The META value reached from a starting value (present or absent)
after folding in a list of further values. -/
def joinInto : Option String → List String → Option String
  | none, [] => none
  | none, v :: vs => some (commaJoin (v :: vs))
  | some o, vs => some (commaJoin (o :: vs))

theorem processHeaders_dlookup (cn : String) (headers : List (String × String)) :
    ∀ meta, dlookup (AsgiRequest.processHeaders meta headers) cn
      = joinInto (dlookup meta cn)
          ((headers.filter (fun p => AsgiRequest.corrected_name p.1 == cn)).map Prod.snd) := by
  induction headers with
  | nil =>
    intro meta
    cases h : dlookup meta cn <;>
      simp [AsgiRequest.processHeaders, joinInto, h, commaJoin]
  | cons p hs ih =>
    intro meta
    rw [show AsgiRequest.processHeaders meta (p :: hs)
        = AsgiRequest.processHeaders (AsgiRequest.addHeader meta p.1 p.2) hs from rfl, ih]
    by_cases hcn : AsgiRequest.corrected_name p.1 = cn
    · rw [List.filter_cons_of_pos (by simp [hcn]), List.map_cons]
      rw [AsgiRequest.addHeader, hcn]
      cases ho : dlookup meta cn with
      | some old =>
        rw [dlookup_dictInsert_self]
        simp [joinInto, commaJoin]
      | none =>
        rw [dlookup_dictInsert_self]
        simp [joinInto]
    · rw [List.filter_cons_of_neg (by simp [hcn])]
      rw [AsgiRequest.addHeader]
      cases ho : dlookup meta (AsgiRequest.corrected_name p.1) <;>
        rw [dlookup_dictInsert_ne _ _ _ _ (fun hq => hcn hq.symm)]

/-- Claim C10: when the same header name (up to the `corrected_name`
mapping) occurs several times in the incoming header list and its META
key was not present before the loop, the resulting META entry is the
comma-join of all its values in arrival order, not just the last
value. -/
theorem claim_C10 (meta : List (String × String)) (headers : List (String × String))
    (name : String)
    (h0 : dlookup meta (AsgiRequest.corrected_name name) = none)
    (hocc : (headers.filter
        (fun p => AsgiRequest.corrected_name p.1 == AsgiRequest.corrected_name name)).map
          Prod.snd ≠ []) :
    dlookup (AsgiRequest.processHeaders meta headers) (AsgiRequest.corrected_name name)
      = some (commaJoin ((headers.filter
          (fun p => AsgiRequest.corrected_name p.1
            == AsgiRequest.corrected_name name)).map Prod.snd)) := by
  rw [processHeaders_dlookup, h0]
  cases hl : (headers.filter
      (fun p => AsgiRequest.corrected_name p.1
        == AsgiRequest.corrected_name name)).map Prod.snd with
  | nil => exact absurd hl hocc
  | cons v vs => rfl

/-- Concrete instance of header folding: `x-token` arrives twice, with
values `a` then `b`, over the initial META of a GET request; the
resulting `HTTP_X_TOKEN` entry is `a,b`. -/
theorem claim_C10_witness :
    (dlookup [("REQUEST_METHOD", "GET")] (AsgiRequest.corrected_name "x-token") = none
      ∧ ([("x-token", "a"), ("x-token", "b")].filter
          (fun p : String × String => AsgiRequest.corrected_name p.1
            == AsgiRequest.corrected_name "x-token")).map Prod.snd ≠ [])
    ∧ dlookup
        (AsgiRequest.processHeaders [("REQUEST_METHOD", "GET")]
          [("x-token", "a"), ("x-token", "b")])
        (AsgiRequest.corrected_name "x-token")
      = some (commaJoin (([("x-token", "a"), ("x-token", "b")].filter
          (fun p : String × String => AsgiRequest.corrected_name p.1
            == AsgiRequest.corrected_name "x-token")).map Prod.snd)) :=
  ⟨⟨by decide, by decide⟩,
    claim_C10 [("REQUEST_METHOD", "GET")] [("x-token", "a"), ("x-token", "b")] "x-token"
      (by decide) (by decide)⟩

theorem containsKey_append {α : Type} (l₁ l₂ : List (String × α)) (k : String) :
    containsKey (l₁ ++ l₂) k = (containsKey l₁ k || containsKey l₂ k) := by
  rw [containsKey, containsKey, containsKey, List.any_append]

theorem pyDict_go {α : Type} (l : List (String × α)) :
    ∀ acc, (l.map Prod.fst).Nodup →
      (∀ p ∈ l, containsKey acc p.1 = false) →
      l.foldl (fun acc p => dictInsert acc p.1 p.2) acc = acc ++ l := by
  induction l with
  | nil =>
    intro acc _ _
    exact (List.append_nil acc).symm
  | cons p l ih =>
    intro acc hnd hdisj
    rw [List.foldl_cons]
    have hins : dictInsert acc p.1 p.2 = acc ++ [p] := by
      rw [dictInsert, if_neg (by rw [hdisj p (List.mem_cons_self p l)]; exact Bool.false_ne_true)]
    rw [hins]
    rw [List.map_cons, List.nodup_cons] at hnd
    have hstep : ∀ q ∈ l, containsKey (acc ++ [p]) q.1 = false := by
      intro q hq
      rw [containsKey_append]
      have h1 : containsKey acc q.1 = false := hdisj q (List.mem_cons_of_mem p hq)
      have h2 : containsKey [p] q.1 = false := by
        rw [containsKey, List.any_cons, List.any_nil, Bool.or_false]
        have : p.1 ≠ q.1 := fun hq2 => hnd.1 (hq2 ▸ List.mem_map_of_mem Prod.fst hq)
        simpa using this
      rw [h1, h2, Bool.or_false]
    rw [ih (acc ++ [p]) hnd.2 hstep, List.append_assoc, List.singleton_append]

theorem pyDict_eq_self {α : Type} (l : List (String × α))
    (hnd : (l.map Prod.fst).Nodup) : pyDict l = l := by
  rw [pyDict, pyDict_go l [] hnd (fun p _ => rfl), List.nil_append]

/-- `str.startswith(pre)`, as a prefix test on the characters. -/
def startswith (s pre : String) : Bool := pre.data.isPrefixOf s.data

/-- The fields of a native Django request object that
`encode_request` reads (src/channels/request.py lines 7-22).  `GET`
and `POST` are `QueryDict`s, modeled as their `lists()` form: one
entry per key, carrying the list of values. -/
structure DjRequest where
  GET : List (String × List String)
  POST : List (String × List String)
  COOKIES : List (String × String)
  META : List (String × String)
  path : String
  path_info : String
  method : String
  reply_channel : String
deriving DecidableEq

/-- The JSON-compatible message dict built by `encode_request`
(src/channels/request.py lines 7-22). -/
structure RequestValue where
  get : List (String × List String)
  post : List (String × List String)
  cookies : List (String × String)
  meta : List (String × String)
  path : String
  path_info : String
  method : String
  reply_channel : String
deriving DecidableEq

/-- `encode_request` (src/channels/request.py lines 7-22):
`dict(request.GET.lists())`, `dict(request.POST.lists())`, the cookies
dict, META restricted by the comprehension
`{k: v for k, v in request.META.items() if not k.startswith("wsgi")}`,
and the scalar fields. -/
def encode_request (r : DjRequest) : RequestValue :=
  { get := pyDict r.GET
    post := pyDict r.POST
    cookies := r.COOKIES
    meta := pyDict (r.META.filter (fun kv => !(startswith kv.1 "wsgi")))
    path := r.path
    path_info := r.path_info
    method := r.method
    reply_channel := r.reply_channel }

/-- `decode_request` (src/channels/request.py lines 25-38): rebuild a
request-shaped object; `CustomQueryDict(values)` is
`MultiValueDict.__init__(self, values)`, i.e. `dict(values)`, and the
other fields are assigned as they are. -/
def decode_request (v : RequestValue) : DjRequest :=
  { GET := pyDict v.get
    POST := pyDict v.post
    COOKIES := v.cookies
    META := v.meta
    path := v.path
    path_info := v.path_info
    method := v.method
    reply_channel := v.reply_channel }

/-- Claim C3: decoding an encoded request preserves the `GET`, `POST`,
`COOKIES`, `path` and `method` fields, for any request whose
`QueryDict`s are well-formed (one entry per key, the `QueryDict`
invariant). -/
theorem claim_C3 (r : DjRequest)
    (hget : (r.GET.map Prod.fst).Nodup) (hpost : (r.POST.map Prod.fst).Nodup) :
    (decode_request (encode_request r)).GET = r.GET
    ∧ (decode_request (encode_request r)).POST = r.POST
    ∧ (decode_request (encode_request r)).COOKIES = r.COOKIES
    ∧ (decode_request (encode_request r)).path = r.path
    ∧ (decode_request (encode_request r)).method = r.method := by
  refine ⟨?_, ?_, rfl, rfl, rfl⟩
  · show pyDict (pyDict r.GET) = r.GET
    rw [pyDict_eq_self r.GET hget, pyDict_eq_self r.GET hget]
  · show pyDict (pyDict r.POST) = r.POST
    rw [pyDict_eq_self r.POST hpost, pyDict_eq_self r.POST hpost]

/-- Concrete round-trip of a request through the codec. -/
theorem claim_C3_witness :
    ((([("q", ["1"])] : List (String × List String)).map Prod.fst).Nodup
      ∧ (([("p", ["a", "b"])] : List (String × List String)).map Prod.fst).Nodup)
    ∧ ((decode_request (encode_request
          { GET := [("q", ["1"])], POST := [("p", ["a", "b"])],
            COOKIES := [("sid", "x")],
            META := [("HTTP_HOST", "h"), ("wsgi.multithread", "True")],
            path := "/x", path_info := "/x", method := "GET",
            reply_channel := "http.response.r1" })).GET = [("q", ["1"])]
      ∧ (decode_request (encode_request
          { GET := [("q", ["1"])], POST := [("p", ["a", "b"])],
            COOKIES := [("sid", "x")],
            META := [("HTTP_HOST", "h"), ("wsgi.multithread", "True")],
            path := "/x", path_info := "/x", method := "GET",
            reply_channel := "http.response.r1" })).POST = [("p", ["a", "b"])]
      ∧ (decode_request (encode_request
          { GET := [("q", ["1"])], POST := [("p", ["a", "b"])],
            COOKIES := [("sid", "x")],
            META := [("HTTP_HOST", "h"), ("wsgi.multithread", "True")],
            path := "/x", path_info := "/x", method := "GET",
            reply_channel := "http.response.r1" })).COOKIES = [("sid", "x")]
      ∧ (decode_request (encode_request
          { GET := [("q", ["1"])], POST := [("p", ["a", "b"])],
            COOKIES := [("sid", "x")],
            META := [("HTTP_HOST", "h"), ("wsgi.multithread", "True")],
            path := "/x", path_info := "/x", method := "GET",
            reply_channel := "http.response.r1" })).path = "/x"
      ∧ (decode_request (encode_request
          { GET := [("q", ["1"])], POST := [("p", ["a", "b"])],
            COOKIES := [("sid", "x")],
            META := [("HTTP_HOST", "h"), ("wsgi.multithread", "True")],
            path := "/x", path_info := "/x", method := "GET",
            reply_channel := "http.response.r1" })).method = "GET") :=
  ⟨⟨by decide, by decide⟩,
    claim_C3
      { GET := [("q", ["1"])], POST := [("p", ["a", "b"])],
        COOKIES := [("sid", "x")],
        META := [("HTTP_HOST", "h"), ("wsgi.multithread", "True")],
        path := "/x", path_info := "/x", method := "GET",
        reply_channel := "http.response.r1" }
      (by decide) (by decide)⟩

/-- Claim C7: the message built by `encode_request` carries META
restricted to the keys that do not start with `wsgi` (every such
transport-internal key excluded, every other key kept with its value),
alongside the query parameters, form parameters, cookies, path, method
and reply channel of the request. -/
theorem claim_C7 (r : DjRequest)
    (hget : (r.GET.map Prod.fst).Nodup) (hpost : (r.POST.map Prod.fst).Nodup)
    (hmeta : (r.META.map Prod.fst).Nodup) :
    (∀ k v, (k, v) ∈ (encode_request r).meta
      ↔ ((k, v) ∈ r.META ∧ startswith k "wsgi" = false))
    ∧ (encode_request r).get = r.GET
    ∧ (encode_request r).post = r.POST
    ∧ (encode_request r).cookies = r.COOKIES
    ∧ (encode_request r).path = r.path
    ∧ (encode_request r).path_info = r.path_info
    ∧ (encode_request r).method = r.method
    ∧ (encode_request r).reply_channel = r.reply_channel := by
  have hfilter_nd :
      ((r.META.filter (fun kv => !(startswith kv.1 "wsgi"))).map Prod.fst).Nodup := by
    refine List.Nodup.sublist ?_ hmeta
    exact List.Sublist.map Prod.fst (List.filter_sublist r.META)
  refine ⟨?_, pyDict_eq_self r.GET hget, pyDict_eq_self r.POST hpost, rfl, rfl, rfl, rfl, rfl⟩
  intro k v
  show (k, v) ∈ pyDict (r.META.filter (fun kv => !(startswith kv.1 "wsgi"))) ↔ _
  rw [pyDict_eq_self _ hfilter_nd, List.mem_filter]
  simp

/-- Concrete instance of META filtering: `wsgi.multithread` is dropped,
`HTTP_HOST` is kept. -/
theorem claim_C7_witness :
    ((([("q", ["1"])] : List (String × List String)).map Prod.fst).Nodup
      ∧ (([("p", ["a", "b"])] : List (String × List String)).map Prod.fst).Nodup
      ∧ (([("HTTP_HOST", "h"), ("wsgi.multithread", "True")] :
            List (String × String)).map Prod.fst).Nodup)
    ∧ (("HTTP_HOST", "h") ∈ (encode_request
          { GET := [("q", ["1"])], POST := [("p", ["a", "b"])],
            COOKIES := [("sid", "x")],
            META := [("HTTP_HOST", "h"), ("wsgi.multithread", "True")],
            path := "/x", path_info := "/x", method := "GET",
            reply_channel := "http.response.r1" }).meta
        ↔ (("HTTP_HOST", "h")
              ∈ ([("HTTP_HOST", "h"), ("wsgi.multithread", "True")] : List (String × String))
            ∧ startswith "HTTP_HOST" "wsgi" = false))
    ∧ (("wsgi.multithread", "True") ∈ (encode_request
          { GET := [("q", ["1"])], POST := [("p", ["a", "b"])],
            COOKIES := [("sid", "x")],
            META := [("HTTP_HOST", "h"), ("wsgi.multithread", "True")],
            path := "/x", path_info := "/x", method := "GET",
            reply_channel := "http.response.r1" }).meta
        ↔ (("wsgi.multithread", "True")
              ∈ ([("HTTP_HOST", "h"), ("wsgi.multithread", "True")] : List (String × String))
            ∧ startswith "wsgi.multithread" "wsgi" = false)) :=
  ⟨⟨by decide, by decide, by decide⟩,
    (claim_C7
      { GET := [("q", ["1"])], POST := [("p", ["a", "b"])],
        COOKIES := [("sid", "x")],
        META := [("HTTP_HOST", "h"), ("wsgi.multithread", "True")],
        path := "/x", path_info := "/x", method := "GET",
        reply_channel := "http.response.r1" }
      (by decide) (by decide) (by decide)).1 "HTTP_HOST" "h",
    (claim_C7
      { GET := [("q", ["1"])], POST := [("p", ["a", "b"])],
        COOKIES := [("sid", "x")],
        META := [("HTTP_HOST", "h"), ("wsgi.multithread", "True")],
        path := "/x", path_info := "/x", method := "GET",
        reply_channel := "http.response.r1" }
      (by decide) (by decide) (by decide)).1 "wsgi.multithread" "True"⟩

/-- Whether a byte is a UTF-8 continuation byte (`0x80..0xBF`). -/
def isCont (b : Nat) : Bool := decide (0x80 ≤ b ∧ b < 0xC0)

/-- The UTF-8 encoding of one Unicode code point, as CPython's
`str.encode('utf8')` produces it. -/
def utf8EncodeChar (c : Nat) : Bytes :=
  if c < 0x80 then [c]
  else if c < 0x800 then [0xC0 + c / 64, 0x80 + c % 64]
  else if c < 0x10000 then [0xE0 + c / 4096, 0x80 + c / 64 % 64, 0x80 + c % 64]
  else [0xF0 + c / 262144, 0x80 + c / 4096 % 64, 0x80 + c / 64 % 64, 0x80 + c % 64]

/-- `str.encode('utf8')`: the UTF-8 encoding of a string given as its
list of code points. -/
def utf8Encode (codes : List Nat) : Bytes := (codes.map utf8EncodeChar).flatten

/-- Decode the first scalar of a UTF-8 byte stream, strictly, as
CPython's `bytes.decode('utf8')` does: stray continuation bytes,
truncated sequences, overlong forms, surrogates and values beyond
U+10FFFF are errors.  Returns the code point and the remaining
bytes. -/
def utf8First (l : Bytes) : Option (Nat × Bytes) :=
  match l with
  | [] => none
  | b :: rest =>
    if b < 0x80 then some (b, rest)
    else if b < 0xC2 then none
    else if b < 0xE0 then
      match rest with
      | b1 :: rest2 =>
        if isCont b1 then some ((b - 0xC0) * 64 + (b1 - 0x80), rest2) else none
      | [] => none
    else if b < 0xF0 then
      match rest with
      | b1 :: b2 :: rest3 =>
        if isCont b1 && isCont b2 then
          if 0x800 ≤ (b - 0xE0) * 4096 + (b1 - 0x80) * 64 + (b2 - 0x80)
              ∧ ((b - 0xE0) * 4096 + (b1 - 0x80) * 64 + (b2 - 0x80) < 0xD800
                  ∨ 0xE000 ≤ (b - 0xE0) * 4096 + (b1 - 0x80) * 64 + (b2 - 0x80)) then
            some ((b - 0xE0) * 4096 + (b1 - 0x80) * 64 + (b2 - 0x80), rest3)
          else none
        else none
      | _ => none
    else if b < 0xF5 then
      match rest with
      | b1 :: b2 :: b3 :: rest4 =>
        if isCont b1 && isCont b2 && isCont b3 then
          if 0x10000 ≤ (b - 0xF0) * 262144 + (b1 - 0x80) * 4096 + (b2 - 0x80) * 64 + (b3 - 0x80)
              ∧ (b - 0xF0) * 262144 + (b1 - 0x80) * 4096 + (b2 - 0x80) * 64 + (b3 - 0x80)
                  < 0x110000 then
            some ((b - 0xF0) * 262144 + (b1 - 0x80) * 4096 + (b2 - 0x80) * 64 + (b3 - 0x80),
              rest4)
          else none
        else none
      | _ => none
    else none

theorem utf8First_length (l : Bytes) (c : Nat) (r : Bytes)
    (h : utf8First l = some (c, r)) : r.length < l.length := by
  rw [utf8First.eq_def] at h
  repeat' split at h
  all_goals first
    | (simp only [Option.some.injEq, Prod.mk.injEq] at h
       rw [← h.2]
       simp only [List.length_cons]
       omega)
    | simp at h

/-- Strict UTF-8 decoding of a whole byte string
(`bytes.decode('utf8')`): the code points, or `none` for the
`UnicodeDecodeError` CPython raises. -/
def utf8Decode (l : Bytes) : Option (List Nat) :=
  match l with
  | [] => some []
  | b :: rest =>
    match _hf : utf8First (b :: rest) with
    | some p => (utf8Decode p.2).map (fun cs => p.1 :: cs)
    | none => none
termination_by l.length
decreasing_by
  exact utf8First_length _ _ _ _hf

theorem utf8Decode_nil : utf8Decode [] = some [] := by
  rw [utf8Decode]

theorem utf8Decode_eq_first (l : Bytes) (hne : l ≠ []) :
    utf8Decode l =
      match utf8First l with
      | some p => (utf8Decode p.2).map (fun cs => p.1 :: cs)
      | none => none := by
  cases l with
  | nil => exact absurd rfl hne
  | cons b rest =>
    rw [utf8Decode]
    split
    · rename_i p hf
      rw [hf]
    · rename_i hf
      rw [hf]

example : utf8Decode [0xFF] = none := by
  simp [utf8Decode, utf8First]
example : utf8Decode [0xC0, 0x80] = none := by
  simp [utf8Decode, utf8First, isCont]
example : utf8Decode [0xED, 0xA0, 0x80] = none := by
  simp [utf8Decode, utf8First, isCont]
example : utf8Decode [0xE2, 0x82, 0xAC] = some [0x20AC] := by
  simp [utf8Decode, utf8First, isCont]

/-- A Unicode scalar value: the code points a Python `str` can hold
(no surrogates, below U+110000). -/
def validScalar (c : Nat) : Prop := c < 0xD800 ∨ (0xE000 ≤ c ∧ c < 0x110000)

instance (c : Nat) : Decidable (validScalar c) :=
  inferInstanceAs (Decidable (c < 0xD800 ∨ (0xE000 ≤ c ∧ c < 0x110000)))

theorem isCont_true (b : Nat) (h : 0x80 ≤ b ∧ b < 0xC0) : isCont b = true := by
  rw [isCont]
  exact decide_eq_true h

theorem utf8EncodeChar_ne_nil (c : Nat) : utf8EncodeChar c ≠ [] := by
  rw [utf8EncodeChar]
  repeat' split
  all_goals simp

theorem utf8First_encodeChar (c : Nat) (hv : validScalar c) (bs : Bytes) :
    utf8First (utf8EncodeChar c ++ bs) = some (c, bs) := by
  rcases Nat.lt_or_ge c 0x80 with h1 | h1
  · rw [show utf8EncodeChar c = [c] from by rw [utf8EncodeChar, if_pos h1]]
    show utf8First (c :: bs) = some (c, bs)
    rw [utf8First.eq_def]
    show (if c < 0x80 then some (c, bs) else _) = some (c, bs)
    rw [if_pos h1]
  · rcases Nat.lt_or_ge c 0x800 with h2 | h2
    · rw [show utf8EncodeChar c = [0xC0 + c / 64, 0x80 + c % 64] from by
        rw [utf8EncodeChar, if_neg (by omega), if_pos h2]]
      show utf8First ((0xC0 + c / 64) :: (0x80 + c % 64) :: bs) = some (c, bs)
      rw [utf8First.eq_def]
      show (if 0xC0 + c / 64 < 0x80 then _ else if 0xC0 + c / 64 < 0xC2 then none
        else if 0xC0 + c / 64 < 0xE0 then
          (if isCont (0x80 + c % 64) then
            some (((0xC0 + c / 64) - 0xC0) * 64 + ((0x80 + c % 64) - 0x80), bs)
          else none)
        else _) = some (c, bs)
      rw [if_neg (by omega), if_neg (by omega), if_pos (by omega),
        if_pos (isCont_true _ (by omega))]
      have harith : ((0xC0 + c / 64) - 0xC0) * 64 + ((0x80 + c % 64) - 0x80) = c := by omega
      rw [harith]
    · rcases Nat.lt_or_ge c 0x10000 with h3 | h3
      · rw [show utf8EncodeChar c = [0xE0 + c / 4096, 0x80 + c / 64 % 64, 0x80 + c % 64] from by
          rw [utf8EncodeChar, if_neg (by omega), if_neg (by omega), if_pos h3]]
        show utf8First
            ((0xE0 + c / 4096) :: (0x80 + c / 64 % 64) :: (0x80 + c % 64) :: bs) = some (c, bs)
        rw [utf8First.eq_def]
        show (if 0xE0 + c / 4096 < 0x80 then _ else if 0xE0 + c / 4096 < 0xC2 then none
          else if 0xE0 + c / 4096 < 0xE0 then _
          else if 0xE0 + c / 4096 < 0xF0 then
            (if isCont (0x80 + c / 64 % 64) && isCont (0x80 + c % 64) then
              if 0x800 ≤ ((0xE0 + c / 4096) - 0xE0) * 4096 + ((0x80 + c / 64 % 64) - 0x80) * 64
                    + ((0x80 + c % 64) - 0x80)
                  ∧ (((0xE0 + c / 4096) - 0xE0) * 4096 + ((0x80 + c / 64 % 64) - 0x80) * 64
                        + ((0x80 + c % 64) - 0x80) < 0xD800
                    ∨ 0xE000 ≤ ((0xE0 + c / 4096) - 0xE0) * 4096
                        + ((0x80 + c / 64 % 64) - 0x80) * 64 + ((0x80 + c % 64) - 0x80)) then
                some (((0xE0 + c / 4096) - 0xE0) * 4096 + ((0x80 + c / 64 % 64) - 0x80) * 64
                    + ((0x80 + c % 64) - 0x80), bs)
              else none
            else none)
          else _) = some (c, bs)
        have harith : ((0xE0 + c / 4096) - 0xE0) * 4096 + ((0x80 + c / 64 % 64) - 0x80) * 64
            + ((0x80 + c % 64) - 0x80) = c := by omega
        rw [if_neg (by omega), if_neg (by omega), if_neg (by omega), if_pos (by omega),
          if_pos (by rw [Bool.and_eq_true]
                     exact ⟨isCont_true _ (by omega), isCont_true _ (by omega)⟩),
          harith, if_pos (by rcases hv with hv | hv <;> omega)]
      · have hv4 : 0x10000 ≤ c ∧ c < 0x110000 := by rcases hv with hv | hv <;> omega
        rw [show utf8EncodeChar c
            = [0xF0 + c / 262144, 0x80 + c / 4096 % 64, 0x80 + c / 64 % 64, 0x80 + c % 64] from by
          rw [utf8EncodeChar, if_neg (by omega), if_neg (by omega), if_neg (by omega)]]
        show utf8First ((0xF0 + c / 262144) :: (0x80 + c / 4096 % 64)
            :: (0x80 + c / 64 % 64) :: (0x80 + c % 64) :: bs) = some (c, bs)
        rw [utf8First.eq_def]
        show (if 0xF0 + c / 262144 < 0x80 then _ else if 0xF0 + c / 262144 < 0xC2 then none
          else if 0xF0 + c / 262144 < 0xE0 then _
          else if 0xF0 + c / 262144 < 0xF0 then _
          else if 0xF0 + c / 262144 < 0xF5 then
            (if isCont (0x80 + c / 4096 % 64) && isCont (0x80 + c / 64 % 64)
                && isCont (0x80 + c % 64) then
              if 0x10000 ≤ ((0xF0 + c / 262144) - 0xF0) * 262144
                    + ((0x80 + c / 4096 % 64) - 0x80) * 4096
                    + ((0x80 + c / 64 % 64) - 0x80) * 64 + ((0x80 + c % 64) - 0x80)
                  ∧ ((0xF0 + c / 262144) - 0xF0) * 262144
                      + ((0x80 + c / 4096 % 64) - 0x80) * 4096
                      + ((0x80 + c / 64 % 64) - 0x80) * 64 + ((0x80 + c % 64) - 0x80)
                      < 0x110000 then
                some (((0xF0 + c / 262144) - 0xF0) * 262144
                    + ((0x80 + c / 4096 % 64) - 0x80) * 4096
                    + ((0x80 + c / 64 % 64) - 0x80) * 64 + ((0x80 + c % 64) - 0x80), bs)
              else none
            else none)
          else none) = some (c, bs)
        have harith : ((0xF0 + c / 262144) - 0xF0) * 262144
            + ((0x80 + c / 4096 % 64) - 0x80) * 4096
            + ((0x80 + c / 64 % 64) - 0x80) * 64 + ((0x80 + c % 64) - 0x80) = c := by omega
        rw [if_neg (by omega), if_neg (by omega), if_neg (by omega), if_neg (by omega),
          if_pos (by omega),
          if_pos (by rw [Bool.and_eq_true, Bool.and_eq_true]
                     exact ⟨⟨isCont_true _ (by omega), isCont_true _ (by omega)⟩,
                       isCont_true _ (by omega)⟩),
          harith, if_pos (by omega)]

theorem utf8Decode_utf8Encode (codes : List Nat) (h : ∀ c ∈ codes, validScalar c) :
    utf8Decode (utf8Encode codes) = some codes := by
  induction codes with
  | nil => exact utf8Decode_nil
  | cons c cs ih =>
    rw [utf8Encode, List.map_cons, List.flatten_cons]
    rw [utf8Decode_eq_first _ (by
      intro hc
      exact utf8EncodeChar_ne_nil c (List.append_eq_nil.mp hc).1)]
    rw [show (cs.map utf8EncodeChar).flatten = utf8Encode cs from rfl]
    rw [utf8First_encodeChar c (h c (List.mem_cons_self c cs)) (utf8Encode cs)]
    show (utf8Decode (utf8Encode cs)).map (fun l => c :: l) = some (c :: cs)
    rw [ih (fun d hd => h d (List.mem_cons_of_mem c hd))]
    rfl

/-- `str.lower()` on one character, modeled on the ASCII range header
names live in. -/
def pyLowerChar (c : Char) : Char :=
  if 'A' ≤ c ∧ c ≤ 'Z' then Char.ofNat (c.toNat + 32) else c

/-- `str.lower()`, modeled on the ASCII range. -/
def pyLower (s : String) : String := String.mk (s.data.map pyLowerChar)

/-- `SimpleCookie.load` on a single `" name=value"` string (the cookie
library is an external collaborator): skip leading spaces, the name is
everything up to the first `=`, the value everything after it.
Faithful for plain token cookies that need no quoting. -/
def cookieLoad (s : String) : String × String :=
  (String.mk ((s.data.dropWhile (fun ch => ch == ' ')).takeWhile (fun ch => !(ch == '='))),
   String.mk (((s.data.dropWhile (fun ch => ch == ' ')).dropWhile (fun ch => !(ch == '='))).drop 1))

theorem takeWhile_append_all (p : Char → Bool) (l1 l2 : List Char)
    (h : ∀ x ∈ l1, p x = true) :
    (l1 ++ l2).takeWhile p = l1 ++ l2.takeWhile p := by
  induction l1 with
  | nil => rfl
  | cons a l ih =>
    rw [List.cons_append, List.takeWhile_cons, h a (List.mem_cons_self a l),
      ih (fun x hx => h x (List.mem_cons_of_mem a hx)), List.cons_append]
    simp

theorem dropWhile_append_all (p : Char → Bool) (l1 l2 : List Char)
    (h : ∀ x ∈ l1, p x = true) :
    (l1 ++ l2).dropWhile p = l2.dropWhile p := by
  induction l1 with
  | nil => rfl
  | cons a l ih =>
    rw [List.cons_append, List.dropWhile_cons, h a (List.mem_cons_self a l)]
    exact ih (fun x hx => h x (List.mem_cons_of_mem a hx))

theorem cookieLoad_cookieOutput (n v : String)
    (hn : n.data ≠ [])
    (hch : ∀ ch ∈ n.data, ¬ ch = ' ' ∧ ¬ ch = '=') :
    cookieLoad (cookieOutput n v) = (n, v) := by
  have hdata : (cookieOutput n v).data = ' ' :: (n.data ++ '=' :: v.data) := by
    rw [cookieOutput]
    simp [String.data_append]
  have hdrop : (cookieOutput n v).data.dropWhile (fun ch => ch == ' ')
      = n.data ++ '=' :: v.data := by
    rw [hdata]
    rw [show List.dropWhile (fun ch => ch == ' ') (' ' :: (n.data ++ '=' :: v.data))
        = List.dropWhile (fun ch => ch == ' ') (n.data ++ '=' :: v.data) from rfl]
    cases hnd : n.data with
    | nil => exact absurd hnd hn
    | cons c0 nd =>
      rw [List.cons_append, List.dropWhile_cons]
      have hc0 : ((c0 == ' ') = false) := by
        have := (hch c0 (by rw [hnd]; exact List.mem_cons_self c0 nd)).1
        simpa using this
      rw [hc0, if_neg Bool.false_ne_true]
  have hname : ∀ ch ∈ n.data, (!(ch == '=')) = true := by
    intro ch hc
    have := (hch ch hc).2
    simpa using this
  rw [cookieLoad, hdrop]
  rw [takeWhile_append_all _ n.data ('=' :: v.data) hname,
    dropWhile_append_all _ n.data ('=' :: v.data) hname]
  rw [show List.takeWhile (fun ch => !(ch == '=')) ('=' :: v.data) = [] from rfl,
    show List.dropWhile (fun ch => !(ch == '=')) ('=' :: v.data) = '=' :: v.data from rfl,
    List.append_nil]
  rfl

namespace Response

/-- The state of a Django `HttpResponse` as read by the
`channels.response` codec (src/channels/response.py): `_headers` is
Django's internal header dict, keyed by the lowercased header name and
storing `(original name, value)`; `cookies` holds the name/value
morsels of the `SimpleCookie`; `content` is the body bytes.  A real
`HttpResponse` has no `content_type` attribute (the content type lives
in `_headers`), so `getattr(response, "content_type", None)` is
`None`. -/
structure DjResponse where
  status_code : Nat
  _headers : List (String × (String × String))
  cookies : List (String × String)
  content : Bytes
deriving DecidableEq

/-- The JSON-compatible dict built by `encode_response`
(src/channels/response.py lines 5-19); `content` is the Python `str`
(as code points) produced by `content.decode('utf8')` under PY3. -/
structure ResponseValue where
  content_type : Option String
  content : List Nat
  status : Nat
  headers : List (String × String)
  cookies : List String
deriving DecidableEq

/-- `encode_response` (src/channels/response.py lines 5-19):
`list(response._headers.values())`, one `Morsel.output(header="")`
string per cookie, the status code, and the body decoded as UTF-8 —
which raises (`none`) on non-UTF-8 bodies under PY3. -/
def encode_response (r : DjResponse) : Option ResponseValue :=
  (utf8Decode r.content).map (fun codes =>
    { content_type := none
      content := codes
      status := r.status_code
      headers := r._headers.map Prod.snd
      cookies := r.cookies.map (fun nv => cookieOutput nv.1 nv.2) })

/-- `decode_response` (src/channels/response.py lines 22-34): build an
`HttpResponse` (whose content setter re-encodes the str body with the
default utf-8 charset), load each cookie string, then overwrite
`_headers` with `{k.lower(): (k, v) for k, v in value['headers']}`. -/
def decode_response (v : ResponseValue) : DjResponse :=
  { status_code := v.status
    content := utf8Encode v.content
    cookies := pyDict (v.cookies.map (fun s => cookieLoad s))
    _headers := pyDict (v.headers.map (fun kv => (pyLower kv.1, kv))) }

end Response

/-- Claim C2 as stated is false on the code: for a response whose body
is the single byte `0xFF` (not valid UTF-8), `encode_response` raises
`UnicodeDecodeError` in `content.decode('utf8')`, so the round trip
yields no response at all, let alone one with the same body bytes. -/
theorem claim_C2_counterexample :
    (Response.encode_response
        { status_code := 200, _headers := [], cookies := [], content := [0xFF] }).map
      Response.decode_response = none := by
  have h : utf8Decode [0xFF] = none := by simp [utf8Decode, utf8First]
  rw [Response.encode_response]
  show ((utf8Decode [0xFF]).map _).map _ = none
  rw [h]
  rfl

/-- Claim C2, amended: for every well-formed `HttpResponse` whose body
bytes are a valid UTF-8 encoding (the encoding of some string of
Unicode scalar values), `decode_response(encode_response(Resp))` is a
response equal to `Resp`: same status code, same header dict (hence
the same header set, names matched by their lowercased key, values
exact), same cookie set and same body bytes.  Well-formed means the
Django invariants hold: each `_headers` key is the lowercased stored
name and keys are distinct, and cookie names are distinct plain tokens
(nonempty, no space or `=`). -/
theorem claim_C2 (r : Response.DjResponse) (codes : List Nat)
    (hvalid : ∀ c ∈ codes, validScalar c)
    (hcontent : r.content = utf8Encode codes)
    (hkeys : ∀ p ∈ r._headers, p.1 = pyLower p.2.1)
    (hhnd : (r._headers.map Prod.fst).Nodup)
    (hcookies : ∀ p ∈ r.cookies, p.1.data ≠ [] ∧ ∀ ch ∈ p.1.data, ¬ ch = ' ' ∧ ¬ ch = '=')
    (hcnd : (r.cookies.map Prod.fst).Nodup) :
    (Response.encode_response r).map Response.decode_response = some r := by
  have henc : Response.encode_response r = some
      { content_type := none
        content := codes
        status := r.status_code
        headers := r._headers.map Prod.snd
        cookies := r.cookies.map (fun nv => cookieOutput nv.1 nv.2) } := by
    rw [Response.encode_response, hcontent, utf8Decode_utf8Encode codes hvalid]
    rfl
  rw [henc]
  show some (Response.decode_response _) = some r
  congr 1
  rw [Response.decode_response]
  have hheaders : pyDict ((r._headers.map Prod.snd).map (fun kv => (pyLower kv.1, kv)))
      = r._headers := by
    rw [List.map_map]
    have hmap : r._headers.map ((fun kv : String × String => (pyLower kv.1, kv)) ∘ Prod.snd)
        = r._headers := by
      conv_rhs => rw [← List.map_id r._headers]
      apply List.map_congr_left
      intro p hp
      cases p with
      | mk k nv =>
        have hk := hkeys (k, nv) hp
        simp only at hk
        show (pyLower nv.1, nv) = (k, nv)
        rw [← hk]
    rw [hmap]
    exact pyDict_eq_self r._headers hhnd
  have hcook : pyDict ((r.cookies.map (fun nv => cookieOutput nv.1 nv.2)).map
        (fun s => cookieLoad s)) = r.cookies := by
    rw [List.map_map]
    have hmap : r.cookies.map ((fun s => cookieLoad s)
          ∘ (fun nv : String × String => cookieOutput nv.1 nv.2))
        = r.cookies := by
      conv_rhs => rw [← List.map_id r.cookies]
      apply List.map_congr_left
      intro p hp
      show cookieLoad (cookieOutput p.1 p.2) = p
      rw [cookieLoad_cookieOutput p.1 p.2 (hcookies p hp).1 (hcookies p hp).2]
    rw [hmap]
    exact pyDict_eq_self r.cookies hcnd
  rw [hheaders, hcook, ← hcontent]

/-- Concrete round-trip instance: body `b"hi"`, one header, one
cookie. -/
theorem claim_C2_witness :
    (Response.encode_response
        { status_code := 200,
          _headers := [("content-type", ("Content-Type", "text/html"))],
          cookies := [("sid", "abc")],
          content := utf8Encode [104, 105] }).map Response.decode_response
      = some
        { status_code := 200,
          _headers := [("content-type", ("Content-Type", "text/html"))],
          cookies := [("sid", "abc")],
          content := utf8Encode [104, 105] } :=
  claim_C2
    { status_code := 200,
      _headers := [("content-type", ("Content-Type", "text/html"))],
      cookies := [("sid", "abc")],
      content := utf8Encode [104, 105] }
    [104, 105] (by decide) rfl (by decide) (by decide) (by decide) (by decide)

end Channels
